import Mathlib

/-!
A shallow embedding of the reminder subsystem of the salonpro backend
(`services/reminder_service.go`), together with theorems checking the
specification's claims against it.  Strings are modelled as lists of
characters, dates as civil (year, month, day) triples with Go's
proleptic-Gregorian day arithmetic, the GORM data store as a record of
query-response functions, and the Twilio gateway as a function from
message parameters to a result.
-/

abbrev Str := List Char

/-- Go `unicode.IsSpace`: the Unicode White_Space code points. -/
def goIsSpace (c : Char) : Bool :=
  let n := c.toNat
  n = 9 || n = 10 || n = 11 || n = 12 || n = 13 || n = 32 || n = 133 || n = 160 ||
    n = 5760 || (8192 ≤ n && n ≤ 8202) || n = 8232 || n = 8233 || n = 8239 ||
    n = 8287 || n = 12288

/-- Go `strings.TrimSpace`. -/
def trimSpace (s : Str) : Str :=
  ((s.dropWhile goIsSpace).reverse.dropWhile goIsSpace).reverse

/-- Go `strings.TrimPrefix s pre`. -/
def trimPrefixOf (s pre : Str) : Str :=
  if pre.isPrefixOf s then s.drop pre.length else s

/-- Worker for `replaceAll`: scan left to right, replacing each
non-overlapping occurrence of `old` (nonempty) by `new`.  The `fuel`
argument only serves structural termination; every step consumes at
least one character of `s` and one unit of fuel, so with starting fuel
`s.length` the `0` fallback is never reached. -/
def replaceAllGo (old new : Str) : Nat → Str → Str
  | _, [] => []
  | 0, s => s
  | fuel + 1, c :: rest =>
    if old ≠ [] ∧ old.isPrefixOf (c :: rest) then
      new ++ replaceAllGo old new fuel ((c :: rest).drop old.length)
    else
      c :: replaceAllGo old new fuel rest

/-- Go `strings.ReplaceAll s old new` for nonempty `old`: replace the
leftmost-first non-overlapping occurrences of `old` by `new`.  (Go's
behaviour for `old = ""` — interleave `new` between characters — is never
exercised by the service, whose pattern is the constant
`[CustomerName]`; here `old = []` returns `s` unchanged.) -/
def replaceAll (s old new : Str) : Str :=
  if old = [] then s else replaceAllGo old new s.length s

/-- A civil calendar date as Go's `time` package views it
(January = 1). -/
structure Date where
  year : Int
  month : Nat
  day : Nat
deriving DecidableEq, Repr

/-- Go `time` leap-year rule (proleptic Gregorian). -/
def isLeap (y : Int) : Bool :=
  y % 4 == 0 && (y % 100 != 0 || y % 400 == 0)

/-- Days in a month of the proleptic Gregorian calendar. -/
def daysInMonth (y : Int) (m : Nat) : Nat :=
  if m = 2 then (if isLeap y then 29 else 28)
  else if m = 4 ∨ m = 6 ∨ m = 9 ∨ m = 11 then 30
  else 31

/-- A (year, month, day) triple that denotes a real calendar date. -/
def Date.valid (d : Date) : Prop :=
  1 ≤ d.month ∧ d.month ≤ 12 ∧ 1 ≤ d.day ∧ d.day ≤ daysInMonth d.year d.month

instance (d : Date) : Decidable d.valid := by
  unfold Date.valid; infer_instance

/-- The calendar successor of a date. -/
def nextDay (d : Date) : Date :=
  if d.day < daysInMonth d.year d.month then ⟨d.year, d.month, d.day + 1⟩
  else if d.month < 12 then ⟨d.year, d.month + 1, 1⟩
  else ⟨d.year + 1, 1, 1⟩

/-- Go `t.AddDate(0, 0, n)` for `n ≥ 0`: the date `n` days later. -/
def addDays (d : Date) : Nat → Date
  | 0 => d
  | n + 1 => nextDay (addDays d n)

/-- The (month, day) pair of a date — what
`EXTRACT(MONTH FROM f), EXTRACT(DAY FROM f)` yields. -/
def monthDay (d : Date) : Nat × Nat := (d.month, d.day)

/-- `models.User`: the fields the reminder service reads. -/
structure User where
  salonID : Nat
  isActive : Bool
deriving DecidableEq, Repr

/-- `models.Salon`: the fields the reminder service reads. -/
structure Salon where
  id : Nat
  whatsAppNotifications : Bool
  smsNotifications : Bool
  birthdayReminders : Bool
  anniversaryReminders : Bool
deriving DecidableEq, Repr

/-- `models.Customer`: the fields the reminder service reads.
`birthday` and `anniversary` are nullable dates. -/
structure Customer where
  salonID : Nat
  isActive : Bool
  name : Str
  phone : Str
  birthday : Option Date
  anniversary : Option Date
deriving DecidableEq, Repr

/-- `models.ReminderTemplate`: the fields the reminder service reads. -/
structure ReminderTemplate where
  salonID : Nat
  type : Str
  message : Str
  isActive : Bool
deriving DecidableEq, Repr

def strBirthday : Str := "birthday".toList
def strAnniversary : Str := "anniversary".toList
def strWhatsapp : Str := "whatsapp".toList
def strSms : Str := "sms".toList
def strWhatsAppColon : Str := "whatsapp:".toList
def strPlus : Str := "+".toList
def strPlaceholder : Str := "[CustomerName]".toList
def errInvalidEvent : Str := "invalid event type: ".toList
def errTwilioNotConfigured : Str :=
  "Twilio not configured; set TWILIO_ACCOUNT_SID and TWILIO_AUTH_TOKEN".toList
def errWhatsAppNotSet : Str := "TWILIO_WHATSAPP_NUMBER not set".toList
def errSmsNotSet : Str := "TWILIO_PHONE_NUMBER not set".toList
def errBadChannel : Str := "channel must be sms or whatsapp, got ".toList

/-- The environment variables the service reads. -/
structure Env where
  twilioAccountSid : Str
  twilioAuthToken : Str
  twilioPhoneNumber : Str
  twilioWhatsAppNumber : Str
deriving Repr

/-- The data store, as the record of responses to the queries the
service issues (each may fail with a database error message). -/
structure DB where
  activeUsersResult : Except Str (List User)
  findSalon : Nat → Except Str Salon
  rawUpcoming : Nat → Str → List (Nat × Nat) → Except Str (List Customer)
  findActiveTemplate : Nat → Str → Except Str ReminderTemplate

/-- The parameters of one Twilio `CreateMessage` call (`To`, `From`,
`Body`). -/
structure MessageParams where
  toAddr : Str
  fromAddr : Str
  body : Str
deriving DecidableEq, Repr

/-- The Twilio gateway: a message either yields a SID or an error. -/
abbrev Gateway := MessageParams → Except Str Str

/-- `ReminderService`: `hasClient` is whether `s.client ≠ nil`. -/
structure ReminderService where
  hasClient : Bool
deriving DecidableEq, Repr

/-- `NewReminderService`: the client is constructed iff both trimmed
credentials are nonempty. -/
def NewReminderService (env : Env) : ReminderService :=
  ⟨!(trimSpace env.twilioAccountSid).isEmpty &&
    !(trimSpace env.twilioAuthToken).isEmpty⟩

/-- The semantics of the raw SQL issued by `getUpcomingCustomers` on a
customers table: rows of the salon, active, event date non-null, and
(month, day) of the event date in the IN-list of pairs. -/
def selectUpcoming (table : List Customer) (salonID : Nat) (field : Str)
    (pairs : List (Nat × Nat)) : List Customer :=
  table.filter fun c =>
    c.salonID == salonID && c.isActive &&
      (match (if field = strBirthday then c.birthday else c.anniversary) with
       | none => false
       | some d => pairs.contains (monthDay d))

/-- A store backed by concrete tables, answering every query the way
PostgreSQL would. -/
def tableDB (users : List User) (salons : List Salon)
    (customers : List Customer) (templates : List ReminderTemplate) : DB :=
  ⟨.ok (users.filter (·.isActive)),
   fun sid =>
     match salons.find? (fun s => s.id == sid) with
     | some s => .ok s
     | none => .error ("record not found".toList),
   fun sid field pairs => .ok (selectUpcoming customers sid field pairs),
   fun sid et =>
     match templates.find?
         (fun t => t.salonID == sid && t.type == et && t.isActive) with
     | some t => .ok t
     | none => .error ("record not found".toList)⟩

/-- The `(month, day)` IN-list built by `getUpcomingCustomers`:
today through today+7. -/
def windowPairs (now : Date) : List (Nat × Nat) :=
  (List.range 8).map fun d => monthDay (addDays now d)

/-- `getUpcomingCustomers`: map the event type to a column (unknown
types fail), build the 8-day (month, day) window, run the query. -/
def getUpcomingCustomers (db : DB) (now : Date) (salonID : Nat)
    (eventType : Str) : Except Str (List Customer) :=
  if eventType = strBirthday then
    db.rawUpcoming salonID strBirthday (windowPairs now)
  else if eventType = strAnniversary then
    db.rawUpcoming salonID strAnniversary (windowPairs now)
  else
    .error (errInvalidEvent ++ eventType)

/-- The channel outcome for one customer in the send loop. -/
inductive ChannelOutcome where
  | whatsapp
  | sms
  | skip
deriving DecidableEq, Repr

/-- The channel decision of the send loop in `sendReminders`: skip blank
phones; WhatsApp iff the salon has WhatsApp on, the raw phone starts
with `+`, and a WhatsApp sender exists; else SMS iff the salon has SMS
on and an SMS sender exists; else skip. -/
def channelChoice (salon : Salon) (phone fromWhatsApp fromSMS : Str) :
    ChannelOutcome :=
  if trimSpace phone = [] then .skip
  else
    let useWhatsApp := salon.whatsAppNotifications &&
      strPlus.isPrefixOf phone && !fromWhatsApp.isEmpty
    let useSMS := salon.smsNotifications && !fromSMS.isEmpty
    if useWhatsApp then .whatsapp
    else if !useSMS then .skip
    else .sms

/-- The message parameters the loop body of `sendReminders` builds for
one customer, `none` when the customer is skipped. -/
def attemptFor (env : Env) (salon : Salon) (templateMessage : Str)
    (customer : Customer) : Option MessageParams :=
  let fromSMS := env.twilioPhoneNumber
  let fromWhatsApp :=
    trimPrefixOf (trimSpace env.twilioWhatsAppNumber) strWhatsAppColon
  let message := replaceAll templateMessage strPlaceholder customer.name
  match channelChoice salon customer.phone fromWhatsApp fromSMS with
  | .skip => none
  | .whatsapp =>
    some ⟨strWhatsAppColon ++ customer.phone,
          strWhatsAppColon ++ fromWhatsApp, message⟩
  | .sms => some ⟨customer.phone, fromSMS, message⟩

/-- `sendReminders`: load the active template for (salon, event type)
— absent means return with no sends — then call the gateway once per
non-skipped customer.  The result lists every attempt with the
gateway's response; a failed response does not stop the loop. -/
def sendReminders (db : DB) (env : Env) (gw : Gateway) (salonID : Nat)
    (customers : List Customer) (eventType : Str) (salon : Salon) :
    List (MessageParams × Except Str Str) :=
  match db.findActiveTemplate salonID eventType with
  | .error _ => []
  | .ok template =>
    customers.filterMap fun customer =>
      (attemptFor env salon template.message customer).map fun p => (p, gw p)

/-- One event-category branch of `ProcessSalonReminders`: fetch the
upcoming customers, and on success dispatch them. -/
def processCategory (db : DB) (env : Env) (gw : Gateway) (now : Date)
    (salonID : Nat) (salon : Salon) (eventType : Str) :
    List (MessageParams × Except Str Str) :=
  match getUpcomingCustomers db now salonID eventType with
  | .error _ => []
  | .ok cs => sendReminders db env gw salonID cs eventType salon

/-- `ProcessSalonReminders`: fetch the salon (missing means no sends);
require at least one channel flag; then run each category branch gated
by its own flag. -/
def ProcessSalonReminders (db : DB) (env : Env) (gw : Gateway)
    (now : Date) (salonID : Nat) : List (MessageParams × Except Str Str) :=
  match db.findSalon salonID with
  | .error _ => []
  | .ok salon =>
    if !salon.whatsAppNotifications && !salon.smsNotifications then []
    else
      (if salon.birthdayReminders then
        processCategory db env gw now salonID salon strBirthday
      else []) ++
      (if salon.anniversaryReminders then
        processCategory db env gw now salonID salon strAnniversary
      else [])

/-- The user loop of `SendDailyReminders` with its `seen` set: process
each salon ID the first time it appears, skip repeats. -/
def dailyLoop (process : Nat → List (MessageParams × Except Str Str)) :
    List User → List Nat → List (MessageParams × Except Str Str)
  | [], _ => []
  | u :: rest, seen =>
    if u.salonID ∈ seen then dailyLoop process rest seen
    else process u.salonID ++ dailyLoop process rest (u.salonID :: seen)

/-- The salon IDs `SendDailyReminders` processes, in order: first
occurrences among the active users, given the IDs already seen. -/
def dedupLoop : List User → List Nat → List Nat
  | [], _ => []
  | u :: rest, seen =>
    if u.salonID ∈ seen then dedupLoop rest seen
    else u.salonID :: dedupLoop rest (u.salonID :: seen)

def dedupSalonIDs (users : List User) : List Nat := dedupLoop users []

/-- `SendDailyReminders`: nothing without a client; fetch active users
(failure means no sends); process each distinct salon once. -/
def SendDailyReminders (svc : ReminderService) (db : DB) (env : Env)
    (gw : Gateway) (now : Date) : List (MessageParams × Except Str Str) :=
  if !svc.hasClient then []
  else
    match db.activeUsersResult with
    | .error _ => []
    | .ok users =>
      dailyLoop (fun sid => ProcessSalonReminders db env gw now sid) users []

def goCronSpec : Str := "0 9 * * *".toList

/-- The observable effect of `StartScheduler`: which cron expression is
armed, whether the startup run fires, and the sends of that run. -/
structure SchedulerEffect where
  cronArmed : Option Str
  startupRun : Bool
  startupSends : List (MessageParams × Except Str Str)

/-- `StartScheduler`: a no-op without a client; otherwise arm the
daily 9 AM cron job and run `SendDailyReminders` once immediately. -/
def StartScheduler (svc : ReminderService) (db : DB) (env : Env)
    (gw : Gateway) (now : Date) : SchedulerEffect :=
  if !svc.hasClient then ⟨none, false, []⟩
  else ⟨some goCronSpec, true, SendDailyReminders svc db env gw now⟩

/-- `SendTestMessage`: one ad-hoc send.  Returns Go's error result and
the list of gateway calls issued (empty or a singleton). -/
def SendTestMessage (svc : ReminderService) (env : Env) (gw : Gateway)
    (phone body channel : Str) : Except Str Unit × List MessageParams :=
  if !svc.hasClient then (.error errTwilioNotConfigured, [])
  else
    let fromSMS := env.twilioPhoneNumber
    let fromWhatsApp :=
      trimPrefixOf (trimSpace env.twilioWhatsAppNumber) strWhatsAppColon
    if channel = strWhatsapp then
      if fromWhatsApp = [] then (.error errWhatsAppNotSet, [])
      else
        let p : MessageParams :=
          ⟨strWhatsAppColon ++ phone, strWhatsAppColon ++ fromWhatsApp, body⟩
        ((gw p).map fun _ => (), [p])
    else if channel = strSms then
      if fromSMS = [] then (.error errSmsNotSet, [])
      else
        let p : MessageParams := ⟨phone, fromSMS, body⟩
        ((gw p).map fun _ => (), [p])
    else (.error (errBadChannel ++ channel), [])

/-- A linear key on dates: strictly increasing along `nextDay`, and two
dates with equal (month, day) differ by an exact multiple of 372. -/
def toOrd (d : Date) : Int :=
  372 * d.year + 31 * (d.month : Int) + (d.day : Int)

/-- A gateway that accepts every message. -/
def okGateway : Gateway := fun _ => .ok ("SM1".toList)

/-- Scenario of the spec's end-to-end WhatsApp test: environment with a
WhatsApp sender (carrying the `whatsapp:` protocol prefix) and no SMS
sender. -/
def demoEnv : Env :=
  ⟨"AC123".toList, "token".toList, [], "whatsapp:+14155238886".toList⟩

/-- Scenario salon: WhatsApp on, SMS off, birthday reminders on. -/
def demoSalon : Salon := ⟨1, true, false, true, false⟩

/-- Scenario customer: phone `+15550001234`, birthday 1990-06-12. -/
def demoCustomer : Customer :=
  ⟨1, true, "Asha".toList, "+15550001234".toList, some ⟨1990, 6, 12⟩, none⟩

/-- Scenario active birthday template. -/
def demoTemplate : ReminderTemplate :=
  ⟨1, strBirthday, "Happy Birthday [CustomerName]".toList, true⟩

/-- Scenario store: one active user, the salon, the customer, the
template. -/
def demoDB : DB := tableDB [⟨1, true⟩] [demoSalon] [demoCustomer] [demoTemplate]

/-- Scenario current date: 2025-06-10, so the birthday is in-window. -/
def demoNow : Date := ⟨2025, 6, 10⟩

/-- The single message of the end-to-end demo scenario, paired with the
gateway's reply. -/
def demoSend : MessageParams × Except Str Str :=
  (⟨"whatsapp:+15550001234".toList, "whatsapp:+14155238886".toList,
    "Happy Birthday Asha".toList⟩, .ok ("SM1".toList))

/-- A store with two tenants (salons 2 and 1) whose lookups fail for
salon 2 — the persistence error of the tenant-isolation scenario —
while salon 1 is answered from the demo tables. -/
def failingDB : DB :=
  ⟨.ok [⟨2, true⟩, ⟨1, true⟩],
   fun sid =>
     if sid = 2 then .error ("database is down".toList)
     else (tableDB [] [demoSalon] [demoCustomer] [demoTemplate]).findSalon sid,
   fun sid f p =>
     if sid = 2 then .error ("database is down".toList)
     else (tableDB [] [demoSalon] [demoCustomer] [demoTemplate]).rawUpcoming
       sid f p,
   fun sid et =>
     (tableDB [] [demoSalon] [demoCustomer] [demoTemplate]).findActiveTemplate
       sid et⟩

theorem daysInMonth_bounds (y : Int) (m : Nat) :
    28 ≤ daysInMonth y m ∧ daysInMonth y m ≤ 31 := by
  unfold daysInMonth
  split
  · split <;> omega
  · split <;> omega

theorem nextDay_valid {d : Date} (h : d.valid) : (nextDay d).valid := by
  obtain ⟨h1, h2, h3, h4⟩ := h
  have hb1 := daysInMonth_bounds d.year (d.month + 1)
  have hb2 := daysInMonth_bounds (d.year + 1) 1
  unfold nextDay
  split
  next h5 => exact ⟨h1, h2, Nat.le_add_left 1 d.day, h5⟩
  next h5 =>
    split
    next h6 =>
      show 1 ≤ d.month + 1 ∧ d.month + 1 ≤ 12 ∧ 1 ≤ (1 : Nat) ∧
        1 ≤ daysInMonth d.year (d.month + 1)
      omega
    next h6 =>
      show 1 ≤ (1 : Nat) ∧ (1 : Nat) ≤ 12 ∧ 1 ≤ (1 : Nat) ∧
        1 ≤ daysInMonth (d.year + 1) 1
      omega

theorem toOrd_nextDay {d : Date} (h : d.valid) :
    toOrd d + 1 ≤ toOrd (nextDay d) ∧ toOrd (nextDay d) ≤ toOrd d + 4 := by
  obtain ⟨h1, h2, h3, h4⟩ := h
  have hb := daysInMonth_bounds d.year d.month
  unfold nextDay
  split
  next h5 => simp only [toOrd]; push_cast; omega
  next h5 =>
    split
    next h6 => simp only [toOrd]; push_cast; omega
    next h6 => simp only [toOrd]; push_cast; omega

theorem addDays_valid {d : Date} (h : d.valid) (n : Nat) :
    (addDays d n).valid := by
  induction n with
  | zero => exact h
  | succ n ih => exact nextDay_valid ih

theorem toOrd_addDays {d : Date} (h : d.valid) (n : Nat) :
    toOrd d + n ≤ toOrd (addDays d n) ∧
      toOrd (addDays d n) ≤ toOrd d + 4 * n := by
  induction n with
  | zero => simp [addDays]
  | succ n ih =>
    have hn := toOrd_nextDay (addDays_valid h n)
    have goal1 : toOrd d + (n + 1 : Nat) ≤ toOrd (addDays d (n + 1)) := by
      show toOrd d + ((n : Int) + 1) ≤ toOrd (nextDay (addDays d n))
      omega
    have goal2 : toOrd (addDays d (n + 1)) ≤ toOrd d + 4 * (n + 1 : Nat) := by
      show toOrd (nextDay (addDays d n)) ≤ toOrd d + 4 * ((n : Int) + 1)
      omega
    exact ⟨by push_cast; push_cast at goal1; omega, by push_cast; push_cast at goal2; omega⟩

theorem monthDay_addDays_ne {d : Date} (h : d.valid) {k : Nat}
    (hk1 : 1 ≤ k) (hk2 : k ≤ 30) : monthDay (addDays d k) ≠ monthDay d := by
  intro heq
  have hb := toOrd_addDays h k
  have hm : (addDays d k).month = d.month := congrArg Prod.fst heq
  have hd : (addDays d k).day = d.day := congrArg Prod.snd heq
  unfold toOrd at hb
  rw [hm, hd] at hb
  omega

theorem addDays_addDays (d : Date) (m n : Nat) :
    addDays (addDays d m) n = addDays d (m + n) := by
  induction n with
  | zero => rfl
  | succ n ih =>
    show nextDay (addDays (addDays d m) n) = addDays d (m + (n + 1))
    rw [ih]
    rfl

theorem mem_windowPairs {now : Date} {p : Nat × Nat} :
    p ∈ windowPairs now ↔ ∃ k, k ≤ 7 ∧ p = monthDay (addDays now k) := by
  rw [windowPairs, List.mem_map]
  constructor
  · rintro ⟨k, hk, heq⟩
    rw [List.mem_range] at hk
    exact ⟨k, by omega, heq.symm⟩
  · rintro ⟨k, hk, heq⟩
    exact ⟨k, List.mem_range.mpr (by omega), heq.symm⟩

theorem windowPairs_excludes_eighth {now : Date} (h : now.valid) :
    monthDay (addDays now 8) ∉ windowPairs now := by
  intro hmem
  rw [mem_windowPairs] at hmem
  obtain ⟨k, hk, heq⟩ := hmem
  have hne : monthDay (addDays (addDays now k) (8 - k)) ≠
      monthDay (addDays now k) :=
    monthDay_addDays_ne (addDays_valid h k) (by omega) (by omega)
  rw [addDays_addDays] at hne
  have h8 : k + (8 - k) = 8 := by omega
  rw [h8] at hne
  exact hne heq

theorem windowPairs_excludes_yesterday {y now : Date} (hy : y.valid)
    (hnext : nextDay y = now) : monthDay y ∉ windowPairs now := by
  intro hmem
  rw [mem_windowPairs] at hmem
  obtain ⟨k, hk, heq⟩ := hmem
  have hstep : addDays now k = addDays y (k + 1) := by
    rw [← hnext]
    have h1 : nextDay y = addDays y 1 := rfl
    rw [h1, addDays_addDays]
    congr 1
    omega
  rw [hstep] at heq
  exact monthDay_addDays_ne hy (by omega) (by omega) heq.symm

theorem selectUpcoming_birthday_eq (table : List Customer) (sid : Nat)
    (pairs : List (Nat × Nat)) :
    selectUpcoming table sid strBirthday pairs =
      table.filter (fun c => c.salonID == sid && c.isActive &&
        (match c.birthday with
         | none => false
         | some d => pairs.contains (monthDay d))) := by
  unfold selectUpcoming
  congr 1

theorem selectUpcoming_anniversary_eq (table : List Customer) (sid : Nat)
    (pairs : List (Nat × Nat)) :
    selectUpcoming table sid strAnniversary pairs =
      table.filter (fun c => c.salonID == sid && c.isActive &&
        (match c.anniversary with
         | none => false
         | some d => pairs.contains (monthDay d))) := by
  unfold selectUpcoming
  congr 1

theorem mem_selectUpcoming_birthday {table : List Customer} {sid : Nat}
    {pairs : List (Nat × Nat)} {c : Customer} :
    c ∈ selectUpcoming table sid strBirthday pairs ↔
      c ∈ table ∧ c.salonID = sid ∧ c.isActive = true ∧
        ∃ d, c.birthday = some d ∧ monthDay d ∈ pairs := by
  rw [selectUpcoming_birthday_eq, List.mem_filter]
  simp only [Bool.and_eq_true, beq_iff_eq]
  constructor
  · rintro ⟨hmem, ⟨hsid, hact⟩, hdate⟩
    refine ⟨hmem, hsid, hact, ?_⟩
    cases hb : c.birthday with
    | none => rw [hb] at hdate; exact absurd hdate (by simp)
    | some d =>
      rw [hb] at hdate
      exact ⟨d, rfl, List.elem_iff.mp hdate⟩
  · rintro ⟨hmem, hsid, hact, d, hbd, hpairs⟩
    refine ⟨hmem, ⟨hsid, hact⟩, ?_⟩
    rw [hbd]
    exact List.elem_iff.mpr hpairs

theorem mem_selectUpcoming_anniversary {table : List Customer} {sid : Nat}
    {pairs : List (Nat × Nat)} {c : Customer} :
    c ∈ selectUpcoming table sid strAnniversary pairs ↔
      c ∈ table ∧ c.salonID = sid ∧ c.isActive = true ∧
        ∃ d, c.anniversary = some d ∧ monthDay d ∈ pairs := by
  rw [selectUpcoming_anniversary_eq, List.mem_filter]
  simp only [Bool.and_eq_true, beq_iff_eq]
  constructor
  · rintro ⟨hmem, ⟨hsid, hact⟩, hdate⟩
    refine ⟨hmem, hsid, hact, ?_⟩
    cases hb : c.anniversary with
    | none => rw [hb] at hdate; exact absurd hdate (by simp)
    | some d =>
      rw [hb] at hdate
      exact ⟨d, rfl, List.elem_iff.mp hdate⟩
  · rintro ⟨hmem, hsid, hact, d, hbd, hpairs⟩
    refine ⟨hmem, ⟨hsid, hact⟩, ?_⟩
    rw [hbd]
    exact List.elem_iff.mpr hpairs

/-- C1: over a table-backed store, `getUpcomingCustomers` returns, for
each known event category, exactly the active customers of the salon
whose non-null event date has the (month, day) pair of one of the 8
dates today .. today+7 (year ignored); a customer whose event date has
the (month, day) of today+8 or of yesterday is never selected; and the
enumeration wraps December→January (Dec 30 is in Dec 25's window, and
Jan 1 is in Dec 29's window). -/
theorem C1_event_window
    (users : List User) (salons : List Salon) (table : List Customer)
    (templates : List ReminderTemplate) (now : Date) (hnow : now.valid)
    (sid : Nat) :
    (getUpcomingCustomers (tableDB users salons table templates) now sid
        strBirthday =
      .ok (selectUpcoming table sid strBirthday (windowPairs now))) ∧
    (getUpcomingCustomers (tableDB users salons table templates) now sid
        strAnniversary =
      .ok (selectUpcoming table sid strAnniversary (windowPairs now))) ∧
    (∀ c, c ∈ selectUpcoming table sid strBirthday (windowPairs now) ↔
      c ∈ table ∧ c.salonID = sid ∧ c.isActive = true ∧
        ∃ d, c.birthday = some d ∧
          ∃ k, k ≤ 7 ∧ monthDay d = monthDay (addDays now k)) ∧
    (∀ c, c ∈ selectUpcoming table sid strAnniversary (windowPairs now) ↔
      c ∈ table ∧ c.salonID = sid ∧ c.isActive = true ∧
        ∃ d, c.anniversary = some d ∧
          ∃ k, k ≤ 7 ∧ monthDay d = monthDay (addDays now k)) ∧
    (∀ c d, c.birthday = some d → monthDay d = monthDay (addDays now 8) →
      c ∉ selectUpcoming table sid strBirthday (windowPairs now)) ∧
    (∀ y, y.valid → nextDay y = now →
      ∀ c d, c.birthday = some d → monthDay d = monthDay y →
        c ∉ selectUpcoming table sid strBirthday (windowPairs now)) ∧
    (∀ c d, c.anniversary = some d → monthDay d = monthDay (addDays now 8) →
      c ∉ selectUpcoming table sid strAnniversary (windowPairs now)) ∧
    (∀ y, y.valid → nextDay y = now →
      ∀ c d, c.anniversary = some d → monthDay d = monthDay y →
        c ∉ selectUpcoming table sid strAnniversary (windowPairs now)) ∧
    ((12, 30) ∈ windowPairs ⟨2025, 12, 25⟩ ∧
      (1, 1) ∈ windowPairs ⟨2025, 12, 29⟩) := by
  refine ⟨rfl, rfl, ?_, ?_, ?_, ?_, ?_, ?_, by decide⟩
  · intro c
    simp only [mem_selectUpcoming_birthday, mem_windowPairs]
  · intro c
    simp only [mem_selectUpcoming_anniversary, mem_windowPairs]
  · intro c d hbd heq hmem
    rw [mem_selectUpcoming_birthday] at hmem
    obtain ⟨-, -, -, d', hbd', hpairs⟩ := hmem
    have hdd : d' = d := Option.some.inj (hbd'.symm.trans hbd)
    rw [hdd, heq] at hpairs
    exact windowPairs_excludes_eighth hnow hpairs
  · intro y hy hnext c d hbd heq hmem
    rw [mem_selectUpcoming_birthday] at hmem
    obtain ⟨-, -, -, d', hbd', hpairs⟩ := hmem
    have hdd : d' = d := Option.some.inj (hbd'.symm.trans hbd)
    rw [hdd, heq] at hpairs
    exact windowPairs_excludes_yesterday hy hnext hpairs
  · intro c d hbd heq hmem
    rw [mem_selectUpcoming_anniversary] at hmem
    obtain ⟨-, -, -, d', hbd', hpairs⟩ := hmem
    have hdd : d' = d := Option.some.inj (hbd'.symm.trans hbd)
    rw [hdd, heq] at hpairs
    exact windowPairs_excludes_eighth hnow hpairs
  · intro y hy hnext c d hbd heq hmem
    rw [mem_selectUpcoming_anniversary] at hmem
    obtain ⟨-, -, -, d', hbd', hpairs⟩ := hmem
    have hdd : d' = d := Option.some.inj (hbd'.symm.trans hbd)
    rw [hdd, heq] at hpairs
    exact windowPairs_excludes_yesterday hy hnext hpairs

/-- Witness for C1 at the concrete date 2025-12-25. -/
theorem C1_event_window_witness :
    (⟨2025, 12, 25⟩ : Date).valid ∧
      ((12, 30) ∈ windowPairs ⟨2025, 12, 25⟩ ∧
        (1, 1) ∈ windowPairs ⟨2025, 12, 29⟩) :=
  ⟨by decide,
   (C1_event_window [] [] [] [] ⟨2025, 12, 25⟩ (by decide)
     0).2.2.2.2.2.2.2.2⟩

theorem mem_dedupLoop (users : List User) (seen : List Nat) (x : Nat) :
    x ∈ dedupLoop users seen ↔ x ∈ users.map User.salonID ∧ x ∉ seen := by
  induction users generalizing seen with
  | nil => simp [dedupLoop]
  | cons u rest ih =>
    unfold dedupLoop
    by_cases hu : u.salonID ∈ seen
    · rw [if_pos hu, ih]
      simp only [List.map_cons, List.mem_cons]
      constructor
      · rintro ⟨hmem, hns⟩
        exact ⟨Or.inr hmem, hns⟩
      · rintro ⟨heq | hmem, hns⟩
        · exact absurd (heq ▸ hu) hns
        · exact ⟨hmem, hns⟩
    · rw [if_neg hu]
      simp only [List.mem_cons, ih, List.map_cons]
      constructor
      · rintro (heq | ⟨hmem, hns⟩)
        · exact ⟨Or.inl heq, heq ▸ hu⟩
        · exact ⟨Or.inr hmem, fun hx => hns (Or.inr hx)⟩
      · rintro ⟨heq | hmem, hns⟩
        · exact Or.inl heq
        · by_cases hxu : x = u.salonID
          · exact Or.inl hxu
          · refine Or.inr ⟨hmem, fun hx => ?_⟩
            rcases hx with h1 | h1
            · exact hxu h1
            · exact hns h1

theorem nodup_dedupLoop (users : List User) (seen : List Nat) :
    (dedupLoop users seen).Nodup := by
  induction users generalizing seen with
  | nil => simp [dedupLoop]
  | cons u rest ih =>
    unfold dedupLoop
    by_cases hu : u.salonID ∈ seen
    · rw [if_pos hu]
      exact ih seen
    · rw [if_neg hu]
      refine List.nodup_cons.mpr ⟨?_, ih _⟩
      rw [mem_dedupLoop]
      rintro ⟨-, hns⟩
      exact hns (List.mem_cons_self _ _)

theorem dailyLoop_eq_flatMap
    (process : Nat → List (MessageParams × Except Str Str))
    (users : List User) (seen : List Nat) :
    dailyLoop process users seen = (dedupLoop users seen).flatMap process := by
  induction users generalizing seen with
  | nil => simp [dailyLoop, dedupLoop]
  | cons u rest ih =>
    unfold dailyLoop dedupLoop
    by_cases hu : u.salonID ∈ seen
    · rw [if_pos hu, if_pos hu, ih]
    · rw [if_neg hu, if_neg hu, ih, List.flatMap_cons]

/-- C7: one daily run processes each distinct salon ID of the active
user list exactly once — the run is the concatenation of one
`ProcessSalonReminders` call per first occurrence of a salon ID, the
processed list has no duplicates, contains exactly the salon IDs of the
active users, and counts every listed salon once and all others zero
times. -/
theorem C7_tenant_dedup (svc : ReminderService) (db : DB) (env : Env)
    (gw : Gateway) (now : Date) (users : List User)
    (hcl : svc.hasClient = true)
    (hu : db.activeUsersResult = .ok users) :
    SendDailyReminders svc db env gw now =
      (dedupSalonIDs users).flatMap
        (fun sid => ProcessSalonReminders db env gw now sid) ∧
    (dedupSalonIDs users).Nodup ∧
    (∀ sid, sid ∈ dedupSalonIDs users ↔ sid ∈ users.map User.salonID) ∧
    (∀ sid, List.count sid (dedupSalonIDs users) =
      if sid ∈ users.map User.salonID then 1 else 0) := by
  have hnd : (dedupSalonIDs users).Nodup := nodup_dedupLoop users []
  have hmem : ∀ sid, sid ∈ dedupSalonIDs users ↔
      sid ∈ users.map User.salonID := by
    intro sid
    rw [dedupSalonIDs, mem_dedupLoop]
    simp
  refine ⟨?_, hnd, hmem, ?_⟩
  · unfold SendDailyReminders
    rw [hcl, hu]
    show dailyLoop _ users [] = _
    rw [dailyLoop_eq_flatMap]
    rfl
  · intro sid
    by_cases hin : sid ∈ users.map User.salonID
    · rw [if_pos hin]
      exact List.count_eq_one_of_mem hnd ((hmem sid).mpr hin)
    · rw [if_neg hin]
      exact List.count_eq_zero.mpr (fun hc => hin ((hmem sid).mp hc))

/-- Witness for C7: two active users of salon 1 and one of salon 2 —
salon 1 is processed exactly once. -/
theorem C7_tenant_dedup_witness :
    List.count 1 (dedupSalonIDs [⟨1, true⟩, ⟨1, true⟩, ⟨2, true⟩]) = 1 := by
  have h := (C7_tenant_dedup ⟨true⟩
      (tableDB [⟨1, true⟩, ⟨1, true⟩, ⟨2, true⟩] [] [] []) demoEnv okGateway
      demoNow [⟨1, true⟩, ⟨1, true⟩, ⟨2, true⟩] rfl rfl).2.2.2 1
  rw [if_pos (by decide)] at h
  exact h

theorem sendReminders_attempts (db : DB) (env : Env) (gw : Gateway)
    (sid : Nat) (customers : List Customer) (et : Str) (salon : Salon)
    (tmpl : ReminderTemplate)
    (ht : db.findActiveTemplate sid et = .ok tmpl) :
    (sendReminders db env gw sid customers et salon).map Prod.fst =
      customers.filterMap (attemptFor env salon tmpl.message) := by
  unfold sendReminders
  rw [ht]
  show (customers.filterMap fun customer =>
      (attemptFor env salon tmpl.message customer).map
        fun p => (p, gw p)).map Prod.fst = _
  rw [List.map_filterMap]
  congr 1
  funext c
  cases attemptFor env salon tmpl.message c <;> rfl

theorem processSalon_local (db1 db2 : DB) (env : Env) (gw : Gateway)
    (now : Date) (B : Nat)
    (hs : db1.findSalon B = db2.findSalon B)
    (hr : ∀ f p, db1.rawUpcoming B f p = db2.rawUpcoming B f p)
    (ht : ∀ et, db1.findActiveTemplate B et = db2.findActiveTemplate B et) :
    ProcessSalonReminders db1 env gw now B =
      ProcessSalonReminders db2 env gw now B := by
  unfold ProcessSalonReminders processCategory getUpcomingCustomers
    sendReminders
  rw [hs]
  simp only [hr, ht]

/-- C4: failures stay inside their unit of work.  (1) Within one
(tenant, category) dispatch the attempted messages are exactly one per
eligible customer and do not depend on the gateway's outcomes, so one
customer's failed send never suppresses the attempts for the rest.
(2) A tenant's processing depends only on the store's answers for that
tenant, so another tenant's lookup errors cannot change it.  (3) Every
salon that appears among the active users still contributes its own
`ProcessSalonReminders` segment to the daily run, whatever the other
tenants' data does. -/
theorem C4_failure_isolation :
    (∀ db env gw1 gw2 sid customers et salon tmpl,
      db.findActiveTemplate sid et = .ok tmpl →
      ((sendReminders db env gw1 sid customers et salon).map Prod.fst =
          customers.filterMap (attemptFor env salon tmpl.message) ∧
        (sendReminders db env gw1 sid customers et salon).map Prod.fst =
          (sendReminders db env gw2 sid customers et salon).map Prod.fst)) ∧
    (∀ db1 db2 env gw now B, db1.findSalon B = db2.findSalon B →
      (∀ f p, db1.rawUpcoming B f p = db2.rawUpcoming B f p) →
      (∀ et, db1.findActiveTemplate B et = db2.findActiveTemplate B et) →
      ProcessSalonReminders db1 env gw now B =
        ProcessSalonReminders db2 env gw now B) ∧
    (∀ svc db env gw now users B, svc.hasClient = true →
      db.activeUsersResult = .ok users → B ∈ dedupSalonIDs users →
      ∃ pre post, SendDailyReminders svc db env gw now =
        pre ++ ProcessSalonReminders db env gw now B ++ post) := by
  refine ⟨?_, ?_, ?_⟩
  · intro db env gw1 gw2 sid customers et salon tmpl ht
    rw [sendReminders_attempts db env gw1 sid customers et salon tmpl ht,
      sendReminders_attempts db env gw2 sid customers et salon tmpl ht]
    exact ⟨rfl, rfl⟩
  · intro db1 db2 env gw now B hs hr ht
    exact processSalon_local db1 db2 env gw now B hs hr ht
  · intro svc db env gw now users B hcl hu hmem
    obtain ⟨s, t, hsplit⟩ := List.append_of_mem hmem
    refine ⟨s.flatMap (fun sid => ProcessSalonReminders db env gw now sid),
            t.flatMap (fun sid => ProcessSalonReminders db env gw now sid),
            ?_⟩
    have hrun : SendDailyReminders svc db env gw now =
        (dedupSalonIDs users).flatMap
          (fun sid => ProcessSalonReminders db env gw now sid) := by
      unfold SendDailyReminders
      rw [hcl, hu]
      show dailyLoop _ users [] = _
      rw [dailyLoop_eq_flatMap]
      rfl
    rw [hrun, hsplit, List.flatMap_append, List.flatMap_cons,
      List.append_assoc]

/-- Witness for C4: salon 2's lookups fail, yet salon 1's segment is
still part of the daily run. -/
theorem C4_failure_isolation_witness :
    (⟨true⟩ : ReminderService).hasClient = true ∧
    failingDB.activeUsersResult = .ok [⟨2, true⟩, ⟨1, true⟩] ∧
    (1 : Nat) ∈ dedupSalonIDs [⟨2, true⟩, ⟨1, true⟩] ∧
    ∃ pre post,
      SendDailyReminders ⟨true⟩ failingDB demoEnv okGateway demoNow =
        pre ++ ProcessSalonReminders failingDB demoEnv okGateway demoNow 1 ++
          post :=
  ⟨rfl, rfl, by decide,
   C4_failure_isolation.2.2 ⟨true⟩ failingDB demoEnv okGateway demoNow
     [⟨2, true⟩, ⟨1, true⟩] 1 rfl rfl (by decide)⟩

/-- C2: for a non-blank phone, the send loop's channel decision is a
function into {WhatsApp, SMS, skip}: WhatsApp exactly when the tenant
has WhatsApp on, the phone starts with `+`, and a WhatsApp sender is
configured; otherwise SMS exactly when the tenant has SMS on and an SMS
sender is configured; otherwise skip.  WhatsApp strictly beats SMS and
the three cases are mutually exclusive. -/
theorem C2_channel_policy (salon : Salon) (phone fromWhatsApp fromSMS : Str)
    (h : trimSpace phone ≠ []) :
    (channelChoice salon phone fromWhatsApp fromSMS = .whatsapp ↔
      salon.whatsAppNotifications = true ∧ strPlus.isPrefixOf phone = true ∧
        fromWhatsApp ≠ []) ∧
    (channelChoice salon phone fromWhatsApp fromSMS = .sms ↔
      ¬(salon.whatsAppNotifications = true ∧ strPlus.isPrefixOf phone = true ∧
          fromWhatsApp ≠ []) ∧
        (salon.smsNotifications = true ∧ fromSMS ≠ [])) ∧
    (channelChoice salon phone fromWhatsApp fromSMS = .skip ↔
      ¬(salon.whatsAppNotifications = true ∧ strPlus.isPrefixOf phone = true ∧
          fromWhatsApp ≠ []) ∧
        ¬(salon.smsNotifications = true ∧ fromSMS ≠ [])) := by
  unfold channelChoice
  rw [if_neg h]
  cases hw : salon.whatsAppNotifications <;>
    cases hp : strPlus.isPrefixOf phone <;>
    cases fromWhatsApp <;>
    cases hs : salon.smsNotifications <;>
    cases fromSMS <;>
    simp_all

/-- Witness for C2: WhatsApp on, `+` phone, both senders set — the
choice is WhatsApp. -/
theorem C2_channel_policy_witness :
    trimSpace ("+15550001234".toList) ≠ [] ∧
      (channelChoice ⟨1, true, true, true, true⟩ ("+15550001234".toList)
          ("+14155238886".toList) ("+15017122661".toList) = .whatsapp ↔
        (⟨1, true, true, true, true⟩ : Salon).whatsAppNotifications = true ∧
          strPlus.isPrefixOf ("+15550001234".toList) = true ∧
          ("+14155238886".toList : Str) ≠ []) :=
  ⟨by decide,
   (C2_channel_policy ⟨1, true, true, true, true⟩ ("+15550001234".toList)
     ("+14155238886".toList) ("+15017122661".toList) (by decide)).1⟩

/-- C3: a tenant with both channel flags off yields zero sends for
every category; with at least one channel on, each category's branch
(fetch then dispatch) runs exactly when that category's reminder flag
is on. -/
theorem C3_channel_gate (db : DB) (env : Env) (gw : Gateway) (now : Date)
    (sid : Nat) (salon : Salon) (hs : db.findSalon sid = .ok salon) :
    ((salon.whatsAppNotifications = false ∧ salon.smsNotifications = false) →
      ProcessSalonReminders db env gw now sid = []) ∧
    ((salon.whatsAppNotifications = true ∨ salon.smsNotifications = true) →
      ProcessSalonReminders db env gw now sid =
        (if salon.birthdayReminders then
          processCategory db env gw now sid salon strBirthday
        else []) ++
        (if salon.anniversaryReminders then
          processCategory db env gw now sid salon strAnniversary
        else [])) := by
  have hstep : ProcessSalonReminders db env gw now sid =
      (if !salon.whatsAppNotifications && !salon.smsNotifications then []
       else
         (if salon.birthdayReminders then
           processCategory db env gw now sid salon strBirthday
         else []) ++
         (if salon.anniversaryReminders then
           processCategory db env gw now sid salon strAnniversary
         else [])) := by
    unfold ProcessSalonReminders
    rw [hs]
  constructor
  · rintro ⟨h1, h2⟩
    rw [hstep, h1, h2]
    rfl
  · intro h1
    rw [hstep]
    have hc : (!salon.whatsAppNotifications && !salon.smsNotifications) =
        false := by
      rcases h1 with h | h <;> simp [h]
    rw [hc]
    rfl

/-- Witness for C3: the demo salon has WhatsApp on, so its run is the
birthday branch alone. -/
theorem C3_channel_gate_witness :
    demoDB.findSalon 1 = .ok demoSalon ∧
      (demoSalon.whatsAppNotifications = true ∨
        demoSalon.smsNotifications = true) ∧
      ProcessSalonReminders demoDB demoEnv okGateway demoNow 1 =
        (if demoSalon.birthdayReminders then
          processCategory demoDB demoEnv okGateway demoNow 1 demoSalon
            strBirthday
        else []) ++
        (if demoSalon.anniversaryReminders then
          processCategory demoDB demoEnv okGateway demoNow 1 demoSalon
            strAnniversary
        else []) :=
  ⟨rfl, Or.inl rfl,
   (C3_channel_gate demoDB demoEnv okGateway demoNow 1 demoSalon rfl).2
     (Or.inl rfl)⟩

theorem replaceAllGo_of_not_infix {old : Str} (new : Str) (fuel : Nat)
    {s : Str} (h : ¬ old <:+: s) : replaceAllGo old new fuel s = s := by
  induction fuel generalizing s with
  | zero => cases s <;> rfl
  | succ fuel ih =>
    cases s with
    | nil => rfl
    | cons c rest =>
      have hnc : ¬(old ≠ [] ∧ old.isPrefixOf (c :: rest) = true) := by
        rintro ⟨hne, hpre⟩
        exact h (List.IsPrefix.isInfix (List.isPrefixOf_iff_prefix.mp hpre))
      unfold replaceAllGo
      rw [if_neg hnc, ih (fun hinf => h (List.infix_cons hinf))]

theorem attemptFor_shape (env : Env) (salon : Salon) (m : Str)
    (c : Customer) (p : MessageParams)
    (h : attemptFor env salon m c = some p) :
    (channelChoice salon c.phone
        (trimPrefixOf (trimSpace env.twilioWhatsAppNumber) strWhatsAppColon)
        env.twilioPhoneNumber = .whatsapp ∧
      p = ⟨strWhatsAppColon ++ c.phone,
        strWhatsAppColon ++
          trimPrefixOf (trimSpace env.twilioWhatsAppNumber) strWhatsAppColon,
        replaceAll m strPlaceholder c.name⟩) ∨
    (channelChoice salon c.phone
        (trimPrefixOf (trimSpace env.twilioWhatsAppNumber) strWhatsAppColon)
        env.twilioPhoneNumber = .sms ∧
      p = ⟨c.phone, env.twilioPhoneNumber,
        replaceAll m strPlaceholder c.name⟩) := by
  simp only [attemptFor] at h
  rcases hch : channelChoice salon c.phone
      (trimPrefixOf (trimSpace env.twilioWhatsAppNumber) strWhatsAppColon)
      env.twilioPhoneNumber with _ | _ | _
  · rw [hch] at h
    exact Or.inl ⟨rfl, (Option.some.inj h).symm⟩
  · rw [hch] at h
    exact Or.inr ⟨rfl, (Option.some.inj h).symm⟩
  · rw [hch] at h
    exact Option.noConfusion h

theorem attemptFor_body (env : Env) (salon : Salon) (m : Str)
    (c : Customer) (p : MessageParams)
    (h : attemptFor env salon m c = some p) :
    p.body = replaceAll m strPlaceholder c.name := by
  rcases attemptFor_shape env salon m c p h with ⟨-, hp⟩ | ⟨-, hp⟩ <;>
    rw [hp]

/-- C6: every dispatched message's body is the template body with the
occurrences of the literal `[CustomerName]` replaced by the customer's
name; a body without the placeholder is sent unchanged; and the spec's
example substitutes as stated. -/
theorem C6_substitution :
    (∀ (db : DB) (env : Env) (gw : Gateway) (sid : Nat)
      (customers : List Customer) (et : Str) (salon : Salon)
      (tmpl : ReminderTemplate),
      db.findActiveTemplate sid et = .ok tmpl →
      ∀ pr ∈ sendReminders db env gw sid customers et salon,
        ∃ c ∈ customers,
          pr.1.body = replaceAll tmpl.message strPlaceholder c.name) ∧
    (∀ (body name : Str), ¬ strPlaceholder <:+: body →
      replaceAll body strPlaceholder name = body) ∧
    replaceAll ("Happy Birthday [CustomerName]!".toList) strPlaceholder
        ("Asha".toList) = "Happy Birthday Asha!".toList := by
  refine ⟨?_, ?_, by decide⟩
  · intro db env gw sid customers et salon tmpl ht pr hpr
    unfold sendReminders at hpr
    rw [ht] at hpr
    have hpr2 : pr ∈ customers.filterMap fun customer =>
        (attemptFor env salon tmpl.message customer).map
          fun p => (p, gw p) := hpr
    rw [List.mem_filterMap] at hpr2
    obtain ⟨c, hc, heq⟩ := hpr2
    refine ⟨c, hc, ?_⟩
    cases ha : attemptFor env salon tmpl.message c with
    | none => rw [ha] at heq; exact Option.noConfusion heq
    | some q =>
      rw [ha] at heq
      have hq : (q, gw q) = pr := Option.some.inj heq
      rw [← hq]
      exact attemptFor_body env salon tmpl.message c q ha
  · intro body name h
    unfold replaceAll
    split
    · rfl
    · exact replaceAllGo_of_not_infix name body.length h

/-- Witness for C6: a body with no placeholder is returned unchanged. -/
theorem C6_substitution_witness :
    ¬ strPlaceholder <:+: ("Hello".toList) ∧
      replaceAll ("Hello".toList) strPlaceholder ("Asha".toList) =
        "Hello".toList :=
  ⟨by decide,
   C6_substitution.2.1 ("Hello".toList) ("Asha".toList) (by decide)⟩

/-- C5: a WhatsApp send is addressed to `whatsapp:` + phone and sent
from `whatsapp:` + the configured WhatsApp sender with a pre-existing
`whatsapp:` prefix stripped first, while an SMS send is addressed to
the raw phone from the SMS sender as-is; and the end-to-end scenario
(WhatsApp on, SMS off, birthday reminders on, WhatsApp sender
configured, one active birthday template, one in-window customer with
phone `+15550001234`) issues exactly one WhatsApp send to
`whatsapp:+15550001234` with the substituted body. -/
theorem C5_address_format :
    (∀ (db : DB) (env : Env) (gw : Gateway) (sid : Nat)
      (customers : List Customer) (et : Str) (salon : Salon) pr,
      pr ∈ sendReminders db env gw sid customers et salon →
      ∃ c ∈ customers,
        (pr.1.toAddr = strWhatsAppColon ++ c.phone ∧
          pr.1.fromAddr = strWhatsAppColon ++
            trimPrefixOf (trimSpace env.twilioWhatsAppNumber)
              strWhatsAppColon) ∨
        (pr.1.toAddr = c.phone ∧
          pr.1.fromAddr = env.twilioPhoneNumber)) ∧
    ProcessSalonReminders demoDB demoEnv okGateway demoNow 1 =
      [demoSend] := by
  constructor
  · intro db env gw sid customers et salon pr hpr
    unfold sendReminders at hpr
    cases ht : db.findActiveTemplate sid et with
    | error e =>
      rw [ht] at hpr
      exact absurd hpr (List.not_mem_nil pr)
    | ok tmpl =>
      rw [ht] at hpr
      have hpr2 : pr ∈ customers.filterMap fun customer =>
          (attemptFor env salon tmpl.message customer).map
            fun p => (p, gw p) := hpr
      rw [List.mem_filterMap] at hpr2
      obtain ⟨c, hc, heq⟩ := hpr2
      refine ⟨c, hc, ?_⟩
      cases ha : attemptFor env salon tmpl.message c with
      | none => rw [ha] at heq; exact Option.noConfusion heq
      | some q =>
        rw [ha] at heq
        have hq : (q, gw q) = pr := Option.some.inj heq
        rcases attemptFor_shape env salon tmpl.message c q ha with
          ⟨-, hp⟩ | ⟨-, hp⟩
        · rw [← hq, hp]
          exact Or.inl ⟨rfl, rfl⟩
        · rw [← hq, hp]
          exact Or.inr ⟨rfl, rfl⟩
  · rfl

/-- Witness for C5: the single demo send is in the dispatch list and
carries WhatsApp-formatted addresses. -/
theorem C5_address_format_witness :
    (demoSend ∈ sendReminders demoDB demoEnv okGateway 1 [demoCustomer]
      strBirthday demoSalon) ∧
    ∃ c ∈ [demoCustomer],
      (demoSend.1.toAddr = strWhatsAppColon ++ c.phone ∧
        demoSend.1.fromAddr = strWhatsAppColon ++
          trimPrefixOf (trimSpace demoEnv.twilioWhatsAppNumber)
            strWhatsAppColon) ∨
      (demoSend.1.toAddr = c.phone ∧
        demoSend.1.fromAddr = demoEnv.twilioPhoneNumber) := by
  have hmem : demoSend ∈ sendReminders demoDB demoEnv okGateway 1
      [demoCustomer] strBirthday demoSalon :=
    List.mem_cons_self demoSend []
  exact ⟨hmem,
    C5_address_format.1 demoDB demoEnv okGateway 1 [demoCustomer]
      strBirthday demoSalon demoSend hmem⟩

/-- C10: the `+` test of the send loop runs on the raw, untrimmed
phone: a phone that is non-blank after trimming but starts with
whitespace never selects WhatsApp, however the flags and senders are
set, and any resulting attempt is an SMS to the raw untrimmed phone
from the SMS sender. -/
theorem C10_raw_phone (salon : Salon) (env : Env) (m : Str) (c : Customer)
    (c0 : Char) (rest : Str) (hphone : c.phone = c0 :: rest)
    (hws : goIsSpace c0 = true) (hnb : trimSpace c.phone ≠ []) :
    (∀ fw fs, channelChoice salon c.phone fw fs ≠ .whatsapp) ∧
    (∀ p, attemptFor env salon m c = some p →
      p.toAddr = c.phone ∧ p.fromAddr = env.twilioPhoneNumber) := by
  have hc0 : ('+' : Char) ≠ c0 := by
    intro he
    rw [← he] at hws
    exact absurd hws (by decide)
  have hpre : strPlus.isPrefixOf c.phone = false := by
    rw [hphone]
    show (('+' : Char) == c0 && List.isPrefixOf ([] : Str) rest) = false
    rw [beq_eq_false_iff_ne.mpr hc0, Bool.false_and]
  have hwa : ∀ fw fs, channelChoice salon c.phone fw fs ≠ .whatsapp := by
    intro fw fs
    unfold channelChoice
    rw [if_neg hnb]
    simp only [hpre, Bool.and_false, Bool.false_and]
    split
    · simp_all
    · split <;> simp
  refine ⟨hwa, ?_⟩
  intro p hp
  rcases attemptFor_shape env salon m c p hp with ⟨hch, -⟩ | ⟨-, hp2⟩
  · exact absurd hch (hwa _ _)
  · rw [hp2]
    exact ⟨rfl, rfl⟩

/-- Witness for C10: phone ` +15550001234` (leading space) with every
flag and sender set never selects WhatsApp. -/
theorem C10_raw_phone_witness :
    (∀ fw fs, channelChoice ⟨1, true, true, true, true⟩
      (" +15550001234".toList) fw fs ≠ .whatsapp) ∧
    (∀ p, attemptFor demoEnv ⟨1, true, true, true, true⟩
        ("Hi [CustomerName]".toList)
        ⟨1, true, "Bo".toList, " +15550001234".toList, none, none⟩ =
          some p →
      p.toAddr = " +15550001234".toList ∧
        p.fromAddr = demoEnv.twilioPhoneNumber) :=
  C10_raw_phone ⟨1, true, true, true, true⟩ demoEnv
    ("Hi [CustomerName]".toList)
    ⟨1, true, "Bo".toList, " +15550001234".toList, none, none⟩
    ' ' ("+15550001234".toList) rfl (by decide) (by decide)

/-- C8: with a gateway credential missing (after trimming) the service
has no client, `StartScheduler` arms no trigger and fires no startup
run, and the daily pipeline issues no send; with both credentials
present `StartScheduler` arms the daily `0 9 * * *` trigger and fires
one immediate `SendDailyReminders` run. -/
theorem C8_scheduler (env : Env) (db : DB) (gw : Gateway) (now : Date) :
    ((trimSpace env.twilioAccountSid = [] ∨
        trimSpace env.twilioAuthToken = []) →
      (NewReminderService env).hasClient = false ∧
      StartScheduler (NewReminderService env) db env gw now =
        ⟨none, false, []⟩ ∧
      SendDailyReminders (NewReminderService env) db env gw now = []) ∧
    ((trimSpace env.twilioAccountSid ≠ [] ∧
        trimSpace env.twilioAuthToken ≠ []) →
      (StartScheduler (NewReminderService env) db env gw now).cronArmed =
        some goCronSpec ∧
      (StartScheduler (NewReminderService env) db env gw now).startupRun =
        true ∧
      (StartScheduler (NewReminderService env) db env gw now).startupSends =
        SendDailyReminders (NewReminderService env) db env gw now) := by
  constructor
  · intro h
    have hcl : (NewReminderService env).hasClient = false := by
      unfold NewReminderService
      show (!(trimSpace env.twilioAccountSid).isEmpty &&
        !(trimSpace env.twilioAuthToken).isEmpty) = false
      rcases h with h | h <;> rw [h] <;> simp
    refine ⟨hcl, ?_, ?_⟩
    · unfold StartScheduler
      rw [hcl]
      rfl
    · unfold SendDailyReminders
      rw [hcl]
      rfl
  · rintro ⟨h1, h2⟩
    have e1 : (trimSpace env.twilioAccountSid).isEmpty = false := by
      cases hts : trimSpace env.twilioAccountSid with
      | nil => exact absurd hts h1
      | cons a l => rfl
    have e2 : (trimSpace env.twilioAuthToken).isEmpty = false := by
      cases hts : trimSpace env.twilioAuthToken with
      | nil => exact absurd hts h2
      | cons a l => rfl
    have hcl : (NewReminderService env).hasClient = true := by
      unfold NewReminderService
      show (!(trimSpace env.twilioAccountSid).isEmpty &&
        !(trimSpace env.twilioAuthToken).isEmpty) = true
      rw [e1, e2]
      rfl
    refine ⟨?_, ?_, ?_⟩ <;> unfold StartScheduler <;> rw [hcl] <;> rfl

/-- Witness for C8: a blank account SID disables the scheduler. -/
theorem C8_scheduler_witness :
    (trimSpace ([] : Str) = [] ∨ trimSpace ("token".toList) = []) ∧
      ((NewReminderService ⟨[], "token".toList, [], []⟩).hasClient =
          false ∧
        StartScheduler (NewReminderService ⟨[], "token".toList, [], []⟩)
          demoDB ⟨[], "token".toList, [], []⟩ okGateway demoNow =
            ⟨none, false, []⟩ ∧
        SendDailyReminders (NewReminderService ⟨[], "token".toList, [], []⟩)
          demoDB ⟨[], "token".toList, [], []⟩ okGateway demoNow = []) :=
  ⟨Or.inl rfl,
   (C8_scheduler ⟨[], "token".toList, [], []⟩ demoDB okGateway demoNow).1
     (Or.inl rfl)⟩

/-- C9: an unknown event category makes `getUpcomingCustomers` fail
with the invalid-event error and no customer set, and an unknown
channel makes `SendTestMessage` fail without issuing any gateway
call. -/
theorem C9_invalid_argument (db : DB) (now : Date) (sid : Nat)
    (svc : ReminderService) (env : Env) (gw : Gateway)
    (phone body et ch : Str)
    (het1 : et ≠ strBirthday) (het2 : et ≠ strAnniversary)
    (hch1 : ch ≠ strSms) (hch2 : ch ≠ strWhatsapp) :
    getUpcomingCustomers db now sid et = .error (errInvalidEvent ++ et) ∧
    (∃ msg, (SendTestMessage svc env gw phone body ch).1 = .error msg) ∧
    (SendTestMessage svc env gw phone body ch).2 = [] := by
  have hstm : SendTestMessage svc env gw phone body ch =
      (if !svc.hasClient then (.error errTwilioNotConfigured, [])
       else (.error (errBadChannel ++ ch), [])) := by
    unfold SendTestMessage
    split
    · rfl
    · simp only [if_neg hch2, if_neg hch1]
  refine ⟨?_, ?_, ?_⟩
  · unfold getUpcomingCustomers
    rw [if_neg het1, if_neg het2]
  · rw [hstm]
    cases svc.hasClient with
    | false => exact ⟨errTwilioNotConfigured, rfl⟩
    | true => exact ⟨errBadChannel ++ ch, rfl⟩
  · rw [hstm]
    cases svc.hasClient with
    | false => rfl
    | true => rfl

/-- Witness for C9: event type `wedding` and channel `email`. -/
theorem C9_invalid_argument_witness :
    getUpcomingCustomers demoDB demoNow 1 ("wedding".toList) =
      .error (errInvalidEvent ++ "wedding".toList) ∧
    (∃ msg, (SendTestMessage ⟨true⟩ demoEnv okGateway
      ("+15550001234".toList) ("hi".toList) ("email".toList)).1 =
        .error msg) ∧
    (SendTestMessage ⟨true⟩ demoEnv okGateway ("+15550001234".toList)
      ("hi".toList) ("email".toList)).2 = [] :=
  C9_invalid_argument demoDB demoNow 1 ⟨true⟩ demoEnv okGateway
    ("+15550001234".toList) ("hi".toList) ("wedding".toList)
    ("email".toList) (by decide) (by decide) (by decide) (by decide)
